import Mathlib

/-!
# Verification of the PSLab Logic Analyzer driver

Shallow embedding of `src/instruments/logic_analyzer.c`.

The driver orchestrates a shared timer (TMR5), four Input-Capture units
(IC1-4), one Change-Notification interrupt source (CN), and four DMA
channels (DMA0-3), moving edge timestamps into a shared sample buffer.

The embedding threads an explicit state `LAState` through every function.
Peripheral calls are modelled by their abstract effect on the peripheral
state plus an appended `HWEvent` in a call trace, so that call ordering
(which several properties are about) is captured faithfully.
-/

namespace LogicAnalyzer

/-- A call made by the driver to one of its peripheral collaborators,
recorded in program order.  Mirrors the collaborator interfaces of
`tmr.h`, `ic.h`, `cn.h`, `dma.h` and `pins.h` as used by
`logic_analyzer.c`. -/
inductive HWEvent where
  /-- `TMR_set_period(timer, period)` -/
  | tmrSetPeriod (timer : Nat) (period : Nat)
  /-- `TMR_start(timer)` -/
  | tmrStart (timer : Nat)
  /-- `TMR_reset(timer)` -/
  | tmrReset (timer : Nat)
  /-- `PINS_get_la_states()` (a read of the LA pin levels) -/
  | pinsRead
  /-- `DMA_setup(channel, count, address, DMA_SOURCE_IC)` -/
  | dmaSetup (channel : Nat) (count : Nat) (addr : Nat)
  /-- `DMA_interrupt_enable(channel, cleanup_callback)` -/
  | dmaInterruptEnable (channel : Nat)
  /-- `DMA_start(channel)` -/
  | dmaStart (channel : Nat)
  /-- `DMA_reset(channel)` -/
  | dmaReset (channel : Nat)
  /-- `IC_start(channel, edge, ictsel)` -/
  | icStart (channel : Nat) (edge : Nat) (ictsel : Nat)
  /-- `IC_interrupt_enable(channel, ic_callback)` -/
  | icInterruptEnable (channel : Nat)
  /-- `IC_interrupt_disable(channel)` -/
  | icInterruptDisable (channel : Nat)
  /-- `IC_reset(channel)` -/
  | icReset (channel : Nat)
  /-- `CN_interrupt_enable(pin, cn_callback)` -/
  | cnInterruptEnable (channel : Nat)
  /-- `CN_reset()` -/
  | cnReset
deriving DecidableEq, Repr

/-- Abstract state of one Input-Capture unit. -/
structure ICUnit where
  running : Bool
  edge : Nat
  intEnabled : Bool
deriving DecidableEq, Repr

/-- The idle (reset) state of an Input-Capture unit. -/
def ICUnit.idle : ICUnit := ⟨false, 0, false⟩

instance : Inhabited ICUnit := ⟨ICUnit.idle⟩

/-- Abstract state of one DMA (Transfer) channel. -/
structure DMAChannel where
  count : Nat
  addr : Nat
  intEnabled : Bool
  running : Bool
deriving DecidableEq, Repr

/-- The idle (reset) state of a DMA channel. -/
def DMAChannel.idle : DMAChannel := ⟨0, 0, false, false⟩

instance : Inhabited DMAChannel := ⟨DMAChannel.idle⟩

/-- Process-wide state of the logic analyzer driver: the two file-scope
globals of `logic_analyzer.c`, the abstract peripheral states, the
current logic levels on the LA pins (an input from the environment,
read by `PINS_get_la_states`), and the peripheral-call trace. -/
structure LAState where
  /-- global `g_num_channels` (uint8) -/
  g_num_channels : Nat
  /-- global `g_initial_states` (uint8) -/
  g_initial_states : Nat
  /-- environment: current LA pin logic levels (one bit per pin) -/
  pins : Nat
  /-- TMR5 period register -/
  tmrPeriod : Nat
  /-- TMR5 running flag -/
  tmrRunning : Bool
  /-- CN interrupt armed -/
  cnArmed : Bool
  /-- pin the CN interrupt is armed on (meaningful when `cnArmed`) -/
  cnChannel : Nat
  /-- the four Input-Capture units, indexed 0-3 (IC1-IC4) -/
  ics : List ICUnit
  /-- the four DMA channels, indexed 0-3 (DMA0-DMA3) -/
  dmas : List DMAChannel
  /-- peripheral calls made so far, in program order -/
  trace : List HWEvent
deriving DecidableEq, Repr

/-- `response_t` result codes. Modelled from the spec: `commands.h` is not
among the sources; the spec exposes exactly a success / argument-error
result. -/
inductive Response where
  | SUCCESS
  | ARGUMENT_ERROR
deriving DecidableEq, Repr

/-! ## Constants

`types.h`, `ic.h`, `tmr.h` and `buffer.h` are not among the sources; the
numeric values below are modelled from the spec (channel identifiers are
four fixed values plus a sentinel `NONE`; edges are `{NONE, RISING,
FALLING, ANY}` with `NONE` the rejected value; the buffer holds up to
10000 timestamps per the driver's own header comment).  Channel values are
0-based, as `capture` passes loop index `i` directly as a channel. -/

def CHANNEL_1 : Nat := 0
def CHANNEL_2 : Nat := 1
def CHANNEL_3 : Nat := 2
def CHANNEL_4 : Nat := 3
def CHANNEL_NONE : Nat := 4
/-- Number of channels; `num_channels > CHANNEL_NUMEL` is rejected. -/
def CHANNEL_NUMEL : Nat := 4

def EDGE_NONE : Nat := 0
def EDGE_ANY : Nat := 1
def EDGE_FALLING : Nat := 2
def EDGE_RISING : Nat := 3

def TMR_TIMER_1 : Nat := 0
def TMR_TIMER_5 : Nat := 4

def IC_TIMER_TMR1 : Nat := 4
def IC_TIMER_PERIPHERAL : Nat := 7

/-- Base address of the sample buffer (`BUFFER` from `buffer.h`).
Modelled from the spec: a fixed compile-time base address; the concrete
value is immaterial, regions are stated as offsets from it. -/
def BUFFER : Nat := 0x900

/-- Capacity of the sample buffer in timestamps (`BUFFER_SIZE` from
`buffer.h`).  Modelled from the spec and the driver's header comment:
up to 10k timestamps across all four channels. -/
def BUFFER_SIZE : Nat := 10000

/-- global `g_TIMER = TMR_TIMER_5` -/
def g_TIMER : Nat := TMR_TIMER_5

/-! ## Peripheral collaborator calls

Each is the abstract effect on `LAState` plus the trace entry. -/

def TMR_set_period (timer : Nat) (period : Nat) (s : LAState) : LAState :=
  { s with tmrPeriod := period,
           trace := s.trace ++ [HWEvent.tmrSetPeriod timer period] }

def TMR_start (timer : Nat) (s : LAState) : LAState :=
  { s with tmrRunning := true, trace := s.trace ++ [HWEvent.tmrStart timer] }

def TMR_reset (timer : Nat) (s : LAState) : LAState :=
  { s with tmrPeriod := 0, tmrRunning := false,
           trace := s.trace ++ [HWEvent.tmrReset timer] }

def DMA_setup (channel count addr : Nat) (s : LAState) : LAState :=
  { s with
      dmas := s.dmas.set channel
        { (s.dmas.getD channel DMAChannel.idle) with
            count := count, addr := addr },
      trace := s.trace ++ [HWEvent.dmaSetup channel count addr] }

def DMA_interrupt_enable (channel : Nat) (s : LAState) : LAState :=
  { s with
      dmas := s.dmas.set channel
        { (s.dmas.getD channel DMAChannel.idle) with intEnabled := true },
      trace := s.trace ++ [HWEvent.dmaInterruptEnable channel] }

def DMA_start (channel : Nat) (s : LAState) : LAState :=
  { s with
      dmas := s.dmas.set channel
        { (s.dmas.getD channel DMAChannel.idle) with running := true },
      trace := s.trace ++ [HWEvent.dmaStart channel] }

def DMA_reset (channel : Nat) (s : LAState) : LAState :=
  { s with dmas := s.dmas.set channel DMAChannel.idle,
           trace := s.trace ++ [HWEvent.dmaReset channel] }

def IC_start (channel edge ictsel : Nat) (s : LAState) : LAState :=
  { s with
      ics := s.ics.set channel
        { (s.ics.getD channel ICUnit.idle) with running := true, edge := edge },
      trace := s.trace ++ [HWEvent.icStart channel edge ictsel] }

def IC_interrupt_enable (channel : Nat) (s : LAState) : LAState :=
  { s with
      ics := s.ics.set channel
        { (s.ics.getD channel ICUnit.idle) with intEnabled := true },
      trace := s.trace ++ [HWEvent.icInterruptEnable channel] }

def IC_interrupt_disable (channel : Nat) (s : LAState) : LAState :=
  { s with
      ics := s.ics.set channel
        { (s.ics.getD channel ICUnit.idle) with intEnabled := false },
      trace := s.trace ++ [HWEvent.icInterruptDisable channel] }

def IC_reset (channel : Nat) (s : LAState) : LAState :=
  { s with ics := s.ics.set channel ICUnit.idle,
           trace := s.trace ++ [HWEvent.icReset channel] }

def CN_interrupt_enable (channel : Nat) (s : LAState) : LAState :=
  { s with cnArmed := true, cnChannel := channel,
           trace := s.trace ++ [HWEvent.cnInterruptEnable channel] }

def CN_reset (s : LAState) : LAState :=
  { s with cnArmed := false, trace := s.trace ++ [HWEvent.cnReset] }

/-- `g_initial_states = PINS_get_la_states();` — snapshot the current pin
levels into the global, recording the read. -/
def PINS_snapshot (s : LAState) : LAState :=
  { s with g_initial_states := s.pins, trace := s.trace ++ [HWEvent.pinsRead] }

/-! ## Static functions of `logic_analyzer.c` -/

/-- `timer2ictsel` -/
def timer2ictsel (timer : Nat) : Nat :=
  if timer = TMR_TIMER_1 then IC_TIMER_TMR1 else IC_TIMER_PERIPHERAL

/-- `trigger`: the time-critical trigger sequence.  The `switch` on
`g_num_channels` falls through from `case 4` down to `case 1`, starting
DMA channels CHANNEL_4, CHANNEL_3, CHANNEL_2, CHANNEL_1 in that order. -/
def trigger (s : LAState) : LAState :=
  let s1 := TMR_set_period g_TIMER 1 s
  let s2 := TMR_start g_TIMER s1
  let s3 := PINS_snapshot s2
  let s4 :=
    if s3.g_num_channels = 4 then
      DMA_start CHANNEL_1 (DMA_start CHANNEL_2
        (DMA_start CHANNEL_3 (DMA_start CHANNEL_4 s3)))
    else if s3.g_num_channels = 3 then
      DMA_start CHANNEL_1 (DMA_start CHANNEL_2 (DMA_start CHANNEL_3 s3))
    else if s3.g_num_channels = 2 then
      DMA_start CHANNEL_1 (DMA_start CHANNEL_2 s3)
    else if s3.g_num_channels = 1 then
      DMA_start CHANNEL_1 s3
    else s3
  TMR_set_period g_TIMER 0 s4

/-- `ic_callback`: trigger from the Input Capture interrupt. -/
def ic_callback (channel : Nat) (s : LAState) : LAState :=
  trigger (IC_interrupt_disable channel s)

/-- `cn_callback`: trigger from the Change Notification interrupt
(the channel argument is unused in the source). -/
def cn_callback (_channel : Nat) (s : LAState) : LAState :=
  trigger (CN_reset s)

/-- `cleanup_callback`: per-channel completion.  `--g_num_channels` is
uint8 arithmetic, so the decrement wraps modulo 256. -/
def cleanup_callback (channel : Nat) (s : LAState) : LAState :=
  let s1 := DMA_reset channel s
  let s2 := IC_reset channel s1
  let s3 := { s2 with g_num_channels := (s2.g_num_channels + 255) % 256 }
  if s3.g_num_channels = 0 then TMR_reset g_TIMER s3 else s3

/-- `configure_trigger` -/
def configure_trigger (edge trigger_pin : Nat) (s : LAState) : LAState :=
  if trigger_pin = CHANNEL_NONE then
    trigger s
  else if edge = EDGE_ANY then
    CN_interrupt_enable trigger_pin s
  else
    IC_interrupt_enable trigger_pin s

/-- One iteration of `capture`'s setup loop, at channel index `i`. -/
def captureStep (num_channels events edge : Nat) (s : LAState) (i : Nat) :
    LAState :=
  let address := BUFFER + i * BUFFER_SIZE / num_channels
  IC_start i edge (timer2ictsel g_TIMER)
    (DMA_interrupt_enable i (DMA_setup i events address s))

/-- `capture` -/
def capture (num_channels events edge trigger_pin : Nat) (s : LAState) :
    LAState :=
  let s0 := { s with g_num_channels := num_channels }
  let s1 := (List.range num_channels).foldl
    (captureStep num_channels events edge) s0
  configure_trigger edge trigger_pin s1

/-! ## Public functions

`LA_capture` reads its four parameters from the UART; the transport is out
of scope, so the already-decoded bytes are taken as arguments. -/

/-- `LA_capture` -/
def LA_capture (num_channels events edge trigger_pin : Nat) (s : LAState) :
    Response × LAState :=
  if num_channels = 0 then
    (Response.ARGUMENT_ERROR, s)
  else if num_channels > CHANNEL_NUMEL then
    (Response.ARGUMENT_ERROR, s)
  else if edge = EDGE_NONE then
    (Response.ARGUMENT_ERROR, s)
  else
    (Response.SUCCESS, capture num_channels events edge trigger_pin s)

/-- `LA_stop` -/
def LA_stop (s : LAState) : Response × LAState :=
  let s1 := CN_reset s
  let s2 := TMR_reset g_TIMER s1
  let s3 := (List.range CHANNEL_NUMEL).foldl
    (fun t i => DMA_reset i (IC_reset i t)) s2
  (Response.SUCCESS, s3)

/-- `LA_get_initial_states`: writes `g_initial_states` to the UART and
returns SUCCESS.  Modelled as returning the byte it writes. -/
def LA_get_initial_states (s : LAState) : Response × Nat :=
  (Response.SUCCESS, s.g_initial_states)

/-! ## Helper definitions and lemmas -/

/-- The quiescent power-on state: globals zero, all peripherals idle,
pins low, empty trace. -/
def initState : LAState :=
  { g_num_channels := 0, g_initial_states := 0, pins := 0, tmrPeriod := 0,
    tmrRunning := false, cnArmed := false, cnChannel := 0,
    ics := List.replicate CHANNEL_NUMEL ICUnit.idle,
    dmas := List.replicate CHANNEL_NUMEL DMAChannel.idle, trace := [] }

/-- The DMA-start calls `trigger`'s unrolled switch makes when
`g_num_channels = n`: channels CHANNEL_n down to CHANNEL_1. -/
def dmaStartEvents (n : Nat) : List HWEvent :=
  if n = 4 then
    [HWEvent.dmaStart CHANNEL_4, HWEvent.dmaStart CHANNEL_3,
     HWEvent.dmaStart CHANNEL_2, HWEvent.dmaStart CHANNEL_1]
  else if n = 3 then
    [HWEvent.dmaStart CHANNEL_3, HWEvent.dmaStart CHANNEL_2,
     HWEvent.dmaStart CHANNEL_1]
  else if n = 2 then
    [HWEvent.dmaStart CHANNEL_2, HWEvent.dmaStart CHANNEL_1]
  else if n = 1 then
    [HWEvent.dmaStart CHANNEL_1]
  else []

/-- The full peripheral-call sequence of `trigger` when
`g_num_channels = n`. -/
def triggerEvents (n : Nat) : List HWEvent :=
  [HWEvent.tmrSetPeriod g_TIMER 1, HWEvent.tmrStart g_TIMER,
   HWEvent.pinsRead]
  ++ dmaStartEvents n ++ [HWEvent.tmrSetPeriod g_TIMER 0]

theorem trigger_trace (s : LAState) :
    (trigger s).trace = s.trace ++ triggerEvents s.g_num_channels ∧
      (trigger s).g_initial_states = s.pins := by
  simp only [trigger, triggerEvents, dmaStartEvents, TMR_set_period,
    TMR_start, PINS_snapshot, DMA_start]
  split_ifs <;> simp

/-- Running the completion callback once for each channel in `cs`, in that
order — a capture session in which every active channel completes. -/
def runCleanups (cs : List Nat) (s : LAState) : LAState :=
  cs.foldl (fun t d => cleanup_callback d t) s

theorem cleanup_callback_trace (c : Nat) (s : LAState)
    (hpos : 1 ≤ s.g_num_channels) (hlt : s.g_num_channels < 256) :
    (cleanup_callback c s).trace =
      s.trace ++ [HWEvent.dmaReset c, HWEvent.icReset c]
        ++ (if s.g_num_channels = 1 then [HWEvent.tmrReset g_TIMER] else [])
    ∧ (cleanup_callback c s).g_num_channels = s.g_num_channels - 1 := by
  unfold cleanup_callback DMA_reset IC_reset TMR_reset
  have hmod : (s.g_num_channels + 255) % 256 = s.g_num_channels - 1 := by
    omega
  by_cases h1 : s.g_num_channels = 1
  · simp [hmod, h1]
  · have hne : ¬s.g_num_channels - 1 = 0 := by omega
    simp [hmod, h1, hne]

theorem runCleanups_trace (cs : List Nat) : ∀ s : LAState,
    s.g_num_channels = cs.length → 1 ≤ cs.length → cs.length < 256 →
    (runCleanups cs s).trace =
      s.trace ++ (cs.flatMap fun d => [HWEvent.dmaReset d, HWEvent.icReset d])
        ++ [HWEvent.tmrReset g_TIMER] := by
  induction cs with
  | nil => intro s _ h1 _; simp at h1
  | cons c cs ih =>
    intro s hn h1 hlt
    have hstep := cleanup_callback_trace c s (by omega) (by omega)
    cases cs with
    | nil =>
      have hone : s.g_num_channels = 1 := by simpa using hn
      simp only [runCleanups, List.foldl_cons, List.foldl_nil]
      rw [hstep.1, hone]
      simp
    | cons d ds =>
      have hne : ¬s.g_num_channels = 1 := by
        rw [hn]; simp
      simp only [runCleanups, List.foldl_cons] at *
      rw [ih (cleanup_callback c s) (by rw [hstep.2, hn]; rfl)
        (by simp) (by simp at hlt ⊢; omega), hstep.1, if_neg hne]
      simp

/-! ## Claims -/

/-- C1: when the trigger fires, the trigger sequence performs exactly, in
this order: (1) set the shared Timer's reload period to the smallest
nonzero value (1) and start it, (2) snapshot all pin logic levels into the
process-wide initial-states value, (3) start every active channel's
Transfer Channel in descending channel-index order (channel index k-1 down
to 0, i.e. CHANNEL_k down to CHANNEL_1, for k active channels), (4)
restore the Timer's reload period to its free-running value (0). -/
theorem trigger_sequence_order (s : LAState)
    (h1 : 1 ≤ s.g_num_channels) (h2 : s.g_num_channels ≤ 4) :
    (trigger s).trace =
      s.trace
      ++ [HWEvent.tmrSetPeriod g_TIMER 1, HWEvent.tmrStart g_TIMER,
          HWEvent.pinsRead]
      ++ (List.range s.g_num_channels).reverse.map
          (fun c => HWEvent.dmaStart c)
      ++ [HWEvent.tmrSetPeriod g_TIMER 0]
    ∧ (trigger s).g_initial_states = s.pins := by
  refine ⟨?_, (trigger_trace s).2⟩
  rw [(trigger_trace s).1]
  obtain h | h | h | h : s.g_num_channels = 1 ∨ s.g_num_channels = 2 ∨
      s.g_num_channels = 3 ∨ s.g_num_channels = 4 := by omega
  all_goals
    rw [h]
    simp [triggerEvents, dmaStartEvents, List.range_succ, CHANNEL_1,
      CHANNEL_2, CHANNEL_3, CHANNEL_4]

/-- Witness for C1 at a concrete three-channel state. -/
theorem trigger_sequence_order_witness :
    1 ≤ ({ initState with g_num_channels := 3, pins := 6 } : LAState).g_num_channels ∧
    ({ initState with g_num_channels := 3, pins := 6 } : LAState).g_num_channels ≤ 4 ∧
    ((trigger { initState with g_num_channels := 3, pins := 6 }).trace =
      ({ initState with g_num_channels := 3, pins := 6 } : LAState).trace
      ++ [HWEvent.tmrSetPeriod g_TIMER 1, HWEvent.tmrStart g_TIMER,
          HWEvent.pinsRead]
      ++ (List.range ({ initState with g_num_channels := 3, pins := 6 } :
          LAState).g_num_channels).reverse.map (fun c => HWEvent.dmaStart c)
      ++ [HWEvent.tmrSetPeriod g_TIMER 0]
    ∧ (trigger { initState with g_num_channels := 3, pins := 6 }).g_initial_states =
      ({ initState with g_num_channels := 3, pins := 6 } : LAState).pins) :=
  ⟨by decide, by decide,
    trigger_sequence_order { initState with g_num_channels := 3, pins := 6 }
      (by decide) (by decide)⟩

/-- `trigger` touches the timer, the DMA channels, the globals and the
trace, but not the Input-Capture units nor the CN source. -/
theorem trigger_preserves (s : LAState) :
    (trigger s).ics = s.ics ∧ (trigger s).cnArmed = s.cnArmed ∧
      (trigger s).g_num_channels = s.g_num_channels := by
  simp only [trigger, TMR_set_period, TMR_start, PINS_snapshot, DMA_start]
  split_ifs <;> simp

/-- `configure_trigger` only appends to the trace. -/
theorem configure_trigger_extends (edge trigger_pin : Nat) (s : LAState) :
    ∃ tl, (configure_trigger edge trigger_pin s).trace = s.trace ++ tl := by
  unfold configure_trigger
  split_ifs
  · exact ⟨_, (trigger_trace s).1⟩
  · exact ⟨_, rfl⟩
  · exact ⟨_, rfl⟩

theorem foldl_captureStep_trace (n events edge : Nat) (l : List Nat) :
    ∀ s : LAState,
    (l.foldl (captureStep n events edge) s).trace =
      s.trace ++ (l.flatMap fun i =>
        [HWEvent.dmaSetup i events (BUFFER + i * BUFFER_SIZE / n),
         HWEvent.dmaInterruptEnable i,
         HWEvent.icStart i edge (timer2ictsel g_TIMER)]) := by
  induction l with
  | nil => intro s; simp
  | cons a l ih =>
    intro s
    simp only [List.foldl_cons, List.flatMap_cons, ih]
    simp [captureStep, DMA_setup, DMA_interrupt_enable, IC_start]

/-- Each active channel's setup calls appear in the capture trace: the DMA
configured with the raw `events` count at the channel's region start, and
the Input-Capture unit started with the raw `edge`. -/
theorem capture_setup_mem (n events edge trigger_pin : Nat) (s : LAState)
    (i : Nat) (hi : i < n) :
    HWEvent.dmaSetup i events (BUFFER + i * BUFFER_SIZE / n) ∈
      (capture n events edge trigger_pin s).trace
    ∧ HWEvent.icStart i edge (timer2ictsel g_TIMER) ∈
      (capture n events edge trigger_pin s).trace := by
  unfold capture
  obtain ⟨tl, htl⟩ := configure_trigger_extends edge trigger_pin
    ((List.range n).foldl (captureStep n events edge)
      { s with g_num_channels := n })
  rw [htl, foldl_captureStep_trace]
  constructor <;>
    · apply List.mem_append_left
      apply List.mem_append_right
      simp only [List.mem_flatMap]
      exact ⟨i, List.mem_range.mpr hi, by simp⟩

/-- A valid request passes validation and runs `capture`. -/
theorem LA_capture_valid (n events edge trigger_pin : Nat) (s : LAState)
    (h1 : 1 ≤ n) (h2 : n ≤ 4) (he : edge ≠ EDGE_NONE) :
    LA_capture n events edge trigger_pin s =
      (Response.SUCCESS, capture n events edge trigger_pin s) := by
  have h0 : ¬n = 0 := by omega
  have h4 : ¬n > CHANNEL_NUMEL := by simp [CHANNEL_NUMEL]; omega
  simp [LA_capture, h0, h4, he]

/-- A two-channel mid-capture state, used as a concrete witness input. -/
def sTwo : LAState := { initState with g_num_channels := 2 }

/-- C3: the completion callback resets exactly that channel's Transfer
Channel and Input-Capture unit and decrements the active-channel counter
by one; the Timer is reset iff the counter reached zero; across a session
in which all the `cs.length` active channels complete (in order `cs`), the
Timer is reset exactly once, as the very last call, after the last channel
completes. -/
theorem cleanup_completion_spec (c : Nat) (cs : List Nat) (s : LAState)
    (hcount : s.g_num_channels = cs.length)
    (hpos : 1 ≤ cs.length) (hlt : cs.length < 256) :
    (cleanup_callback c s).trace =
      s.trace ++ [HWEvent.dmaReset c, HWEvent.icReset c]
        ++ (if cs.length = 1 then [HWEvent.tmrReset g_TIMER] else [])
    ∧ (cleanup_callback c s).g_num_channels = cs.length - 1
    ∧ (runCleanups cs s).trace =
        s.trace
          ++ (cs.flatMap fun d => [HWEvent.dmaReset d, HWEvent.icReset d])
          ++ [HWEvent.tmrReset g_TIMER]
    ∧ HWEvent.tmrReset g_TIMER ∉
        (cs.flatMap fun d => [HWEvent.dmaReset d, HWEvent.icReset d]) := by
  obtain ⟨ht, hg⟩ :=
    cleanup_callback_trace c s (by omega) (by omega)
  refine ⟨by rw [ht, hcount], by rw [hg, hcount],
    runCleanups_trace cs s hcount hpos hlt, ?_⟩
  simp [List.mem_flatMap]

/-- Witness for C3: a session of two active channels completing as
channel 0 then channel 1. -/
theorem cleanup_completion_spec_witness :
    sTwo.g_num_channels = [0, 1].length ∧
    ((cleanup_callback 0 sTwo).trace =
      sTwo.trace ++ [HWEvent.dmaReset 0, HWEvent.icReset 0]
        ++ (if [0, 1].length = 1 then [HWEvent.tmrReset g_TIMER] else [])
    ∧ (cleanup_callback 0 sTwo).g_num_channels = [0, 1].length - 1
    ∧ (runCleanups [0, 1] sTwo).trace =
        sTwo.trace
          ++ ([0, 1].flatMap fun d =>
              [HWEvent.dmaReset d, HWEvent.icReset d])
          ++ [HWEvent.tmrReset g_TIMER]
    ∧ HWEvent.tmrReset g_TIMER ∉
        ([0, 1].flatMap fun d =>
          [HWEvent.dmaReset d, HWEvent.icReset d])) :=
  ⟨by decide,
    cleanup_completion_spec 0 [0, 1] sTwo (by decide) (by decide) (by decide)⟩

/-- C10: the counter decrement is unguarded 8-bit arithmetic — invoked on
a state whose active-channel counter is already zero, the counter wraps to
255 and the Timer is not reset (the callback makes only the two per-channel
reset calls). -/
theorem cleanup_callback_underflow (c : Nat) (s : LAState)
    (h : s.g_num_channels = 0) :
    (cleanup_callback c s).g_num_channels = 255 ∧
    (cleanup_callback c s).trace =
      s.trace ++ [HWEvent.dmaReset c, HWEvent.icReset c] := by
  simp [cleanup_callback, DMA_reset, IC_reset, h]

/-- Witness for C10: a spurious completion on channel 3 in the quiescent
state. -/
theorem cleanup_callback_underflow_witness :
    initState.g_num_channels = 0 ∧
    ((cleanup_callback 3 initState).g_num_channels = 255 ∧
     (cleanup_callback 3 initState).trace =
       initState.trace ++ [HWEvent.dmaReset 3, HWEvent.icReset 3]) :=
  ⟨by decide, cleanup_callback_underflow 3 initState (by decide)⟩

/-- C4: for a request with channel count 0, channel count > 4, or edge
NONE, `LA_capture` returns an argument error and leaves the entire state
(peripherals, globals, trace) untouched: validation completes before any
peripheral is touched. -/
theorem LA_capture_invalid_args (num_channels events edge trigger_pin : Nat)
    (s : LAState)
    (h : num_channels = 0 ∨ num_channels > CHANNEL_NUMEL ∨
      edge = EDGE_NONE) :
    LA_capture num_channels events edge trigger_pin s =
      (Response.ARGUMENT_ERROR, s) := by
  unfold LA_capture
  split_ifs with h1 h2 h3
  · rfl
  · rfl
  · rfl
  · rcases h with h | h | h <;> contradiction

/-- Witness for C4: a five-channel request is rejected with no state
change. -/
theorem LA_capture_invalid_args_witness :
    (5 = 0 ∨ 5 > CHANNEL_NUMEL ∨ EDGE_RISING = EDGE_NONE) ∧
    LA_capture 5 100 EDGE_RISING CHANNEL_NONE initState =
      (Response.ARGUMENT_ERROR, initState) :=
  ⟨by decide,
    LA_capture_invalid_args 5 100 EDGE_RISING CHANNEL_NONE initState
      (by decide)⟩

/-- C5: the trigger decision table.  If the trigger pin is NONE, the
trigger sequence runs synchronously inside `configure_trigger`.  If a pin
is set and edge is ANY, exactly one peripheral call is made — arming the
Change-Notification source on that pin — and the Input-Capture units are
untouched.  If a pin is set and edge is RISING or FALLING, exactly one
peripheral call is made — arming that pin's Input-Capture interrupt — and
the Change-Notification source stays unarmed. -/
theorem configure_trigger_table (edge trigger_pin : Nat) (s : LAState) :
    (trigger_pin = CHANNEL_NONE →
      configure_trigger edge trigger_pin s = trigger s)
    ∧ (trigger_pin ≠ CHANNEL_NONE → edge = EDGE_ANY →
        (configure_trigger edge trigger_pin s).trace =
          s.trace ++ [HWEvent.cnInterruptEnable trigger_pin]
        ∧ (configure_trigger edge trigger_pin s).cnArmed = true
        ∧ (configure_trigger edge trigger_pin s).cnChannel = trigger_pin
        ∧ (configure_trigger edge trigger_pin s).ics = s.ics)
    ∧ (trigger_pin ≠ CHANNEL_NONE →
        (edge = EDGE_RISING ∨ edge = EDGE_FALLING) →
        (configure_trigger edge trigger_pin s).trace =
          s.trace ++ [HWEvent.icInterruptEnable trigger_pin]
        ∧ (configure_trigger edge trigger_pin s).cnArmed = s.cnArmed) := by
  refine ⟨fun hp => ?_, fun hp he => ?_, fun hp he => ?_⟩
  · simp [configure_trigger, hp]
  · simp [configure_trigger, hp, he, CN_interrupt_enable]
  · have hne : edge ≠ EDGE_ANY := by
      rcases he with he | he <;> rw [he] <;> decide
    simp [configure_trigger, hp, hne, IC_interrupt_enable]

/-- Witness for C5: all three rows of the decision table at concrete
inputs (immediate trigger; deferred via CN for ANY on pin 2; deferred via
IC for RISING on pin 2). -/
theorem configure_trigger_table_witness :
    configure_trigger EDGE_RISING CHANNEL_NONE initState = trigger initState
    ∧ (configure_trigger EDGE_ANY 2 initState).trace =
        initState.trace ++ [HWEvent.cnInterruptEnable 2]
    ∧ (configure_trigger EDGE_RISING 2 initState).trace =
        initState.trace ++ [HWEvent.icInterruptEnable 2] :=
  ⟨(configure_trigger_table EDGE_RISING CHANNEL_NONE initState).1 (by decide),
   ((configure_trigger_table EDGE_ANY 2 initState).2.1 (by decide)
     (by decide)).1,
   ((configure_trigger_table EDGE_RISING 2 initState).2.2 (by decide)
     (Or.inl rfl)).1⟩

/-- C7: both deferred trigger callbacks disarm their own interrupt source
as the first action (first appended call), and only then run the trigger
sequence; afterwards the source is disarmed, so the trigger is one-shot. -/
theorem deferred_callbacks_disarm_first (c : Nat) (s : LAState) :
    (ic_callback c s).trace =
      s.trace ++ [HWEvent.icInterruptDisable c]
        ++ triggerEvents s.g_num_channels
    ∧ ((ic_callback c s).ics.getD c ICUnit.idle).intEnabled = false
    ∧ (cn_callback c s).trace =
        s.trace ++ [HWEvent.cnReset] ++ triggerEvents s.g_num_channels
    ∧ (cn_callback c s).cnArmed = false := by
  refine ⟨?_, ?_, ?_, ?_⟩
  · rw [ic_callback, (trigger_trace _).1]
    simp [IC_interrupt_disable]
  · rw [ic_callback, (trigger_preserves _).1]
    rcases Nat.lt_or_ge c s.ics.length with hc | hc
    · simp [IC_interrupt_disable, List.getD_eq_getElem?_getD,
        List.getElem?_set, hc]
    · have hnl : ¬c < s.ics.length := Nat.not_lt.mpr hc
      simp [IC_interrupt_disable, List.getD_eq_getElem?_getD,
        List.getElem?_set, hnl, List.getElem?_eq_none (by simpa using hc),
        ICUnit.idle]
  · rw [cn_callback, (trigger_trace _).1]
    simp [CN_reset]
  · rw [cn_callback, (trigger_preserves _).2.1]
    simp [CN_reset]

/-- C6: `LA_stop` always returns success and, from any state,
unconditionally disarms the Change-Notification source, resets the shared
Timer, and resets all four Input-Capture units and all four Transfer
Channels (its call sequence is fixed and covers channels 0-3 regardless of
which were active); it is idempotent — a second stop leaves the same
resource state (everything but the call trace) as the first. -/
theorem LA_stop_spec (s : LAState)
    (hic : s.ics.length = 4) (hdma : s.dmas.length = 4) :
    (LA_stop s).1 = Response.SUCCESS
    ∧ (LA_stop s).2.trace =
        s.trace ++ [HWEvent.cnReset, HWEvent.tmrReset g_TIMER,
          HWEvent.icReset 0, HWEvent.dmaReset 0,
          HWEvent.icReset 1, HWEvent.dmaReset 1,
          HWEvent.icReset 2, HWEvent.dmaReset 2,
          HWEvent.icReset 3, HWEvent.dmaReset 3]
    ∧ (LA_stop s).2.ics = List.replicate 4 ICUnit.idle
    ∧ (LA_stop s).2.dmas = List.replicate 4 DMAChannel.idle
    ∧ (LA_stop s).2.cnArmed = false
    ∧ (LA_stop s).2.tmrRunning = false
    ∧ (LA_stop s).2.tmrPeriod = 0
    ∧ { (LA_stop (LA_stop s).2).2 with trace := [] } =
        { (LA_stop s).2 with trace := [] } := by
  obtain ⟨g1, g2, p, tp, trn, ca, cc, ics, dmas, tra⟩ := s
  simp only at hic hdma
  rcases ics with _ | ⟨i1, ics⟩; · simp at hic
  rcases ics with _ | ⟨i2, ics⟩; · simp at hic
  rcases ics with _ | ⟨i3, ics⟩; · simp at hic
  rcases ics with _ | ⟨i4, ics⟩; · simp at hic
  rcases ics with _ | ⟨i5, ics⟩
  case cons => simp at hic
  rcases dmas with _ | ⟨d1, dmas⟩; · simp at hdma
  rcases dmas with _ | ⟨d2, dmas⟩; · simp at hdma
  rcases dmas with _ | ⟨d3, dmas⟩; · simp at hdma
  rcases dmas with _ | ⟨d4, dmas⟩; · simp at hdma
  rcases dmas with _ | ⟨d5, dmas⟩
  case cons => simp at hdma
  refine ⟨rfl, ?_, ?_, ?_, rfl, rfl, rfl, ?_⟩ <;>
    simp [LA_stop, CN_reset, TMR_reset, IC_reset, DMA_reset,
      CHANNEL_NUMEL, List.range_succ, ICUnit.idle, DMAChannel.idle]

/-- Witness for C6 at the quiescent state. -/
theorem LA_stop_spec_witness :
    initState.ics.length = 4 ∧ initState.dmas.length = 4 ∧
    ((LA_stop initState).1 = Response.SUCCESS
    ∧ (LA_stop initState).2.trace =
        initState.trace ++ [HWEvent.cnReset, HWEvent.tmrReset g_TIMER,
          HWEvent.icReset 0, HWEvent.dmaReset 0,
          HWEvent.icReset 1, HWEvent.dmaReset 1,
          HWEvent.icReset 2, HWEvent.dmaReset 2,
          HWEvent.icReset 3, HWEvent.dmaReset 3]
    ∧ (LA_stop initState).2.ics = List.replicate 4 ICUnit.idle
    ∧ (LA_stop initState).2.dmas = List.replicate 4 DMAChannel.idle
    ∧ (LA_stop initState).2.cnArmed = false
    ∧ (LA_stop initState).2.tmrRunning = false
    ∧ (LA_stop initState).2.tmrPeriod = 0
    ∧ { (LA_stop (LA_stop initState).2).2 with trace := [] } =
        { (LA_stop initState).2 with trace := [] }) :=
  ⟨by decide, by decide, LA_stop_spec initState (by decide) (by decide)⟩

/-- C2 counterexample: for `capture(channel_count=2, total_events=100,
edge=RISING, trigger_channel=NONE)` the code configures channel 0's
Transfer Channel with the full 100 events — a `DMA_setup` with count 100
is in the trace, and no `DMA_setup` with count 100 / 2 = 50 is — refuting
"each Transfer Channel moves total_events / channel_count events". -/
theorem capture_event_count_counterexample :
    HWEvent.dmaSetup 0 100 (BUFFER + 0 * BUFFER_SIZE / 2) ∈
      (LA_capture 2 100 EDGE_RISING CHANNEL_NONE initState).2.trace
    ∧ HWEvent.dmaSetup 0 50 (BUFFER + 0 * BUFFER_SIZE / 2) ∉
      (LA_capture 2 100 EDGE_RISING CHANNEL_NONE initState).2.trace
    ∧ HWEvent.dmaSetup 1 50 (BUFFER + 1 * BUFFER_SIZE / 2) ∉
      (LA_capture 2 100 EDGE_RISING CHANNEL_NONE initState).2.trace := by
  decide

/-- C2 amended: for every valid request, `capture` partitions the sample
buffer into `channel_count` contiguous regions in channel order, region i
starting at offset `i * capacity / channel_count` (start offsets strictly
increasing), and configures channel i's Transfer Channel to move the full
`total_events` count (not `total_events / channel_count`) into region i;
for channel_count = 2 and total_events = 100, each of the 2 regions is
configured to receive 100 timestamps. -/
theorem capture_partitions_buffer (n events edge trigger_pin : Nat)
    (s : LAState) (h1 : 1 ≤ n) (h2 : n ≤ 4) (he : edge ≠ EDGE_NONE) :
    (LA_capture n events edge trigger_pin s).1 = Response.SUCCESS
    ∧ (∀ i, i < n →
        HWEvent.dmaSetup i events (BUFFER + i * BUFFER_SIZE / n) ∈
          (LA_capture n events edge trigger_pin s).2.trace)
    ∧ (∀ i j, i < j → j < n →
        BUFFER + i * BUFFER_SIZE / n < BUFFER + j * BUFFER_SIZE / n) := by
  have hv := LA_capture_valid n events edge trigger_pin s h1 h2 he
  refine ⟨by rw [hv], fun i hi => ?_, fun i j hij hjn => ?_⟩
  · rw [hv]
    exact (capture_setup_mem n events edge trigger_pin s i hi).1
  · interval_cases n <;> interval_cases j <;> interval_cases i <;> decide

/-- Witness for C2 (amended) at the spec's scenario
`capture(2, 100, RISING, NONE)`. -/
theorem capture_partitions_buffer_witness :
    (LA_capture 2 100 EDGE_RISING CHANNEL_NONE initState).1 =
      Response.SUCCESS
    ∧ HWEvent.dmaSetup 0 100 (BUFFER + 0 * BUFFER_SIZE / 2) ∈
        (LA_capture 2 100 EDGE_RISING CHANNEL_NONE initState).2.trace
    ∧ HWEvent.dmaSetup 1 100 (BUFFER + 1 * BUFFER_SIZE / 2) ∈
        (LA_capture 2 100 EDGE_RISING CHANNEL_NONE initState).2.trace
    ∧ BUFFER + 0 * BUFFER_SIZE / 2 < BUFFER + 1 * BUFFER_SIZE / 2 := by
  have h := capture_partitions_buffer 2 100 EDGE_RISING CHANNEL_NONE
    initState (by decide) (by decide) (by decide)
  exact ⟨h.1, h.2.1 0 (by decide), h.2.1 1 (by decide),
    h.2.2 0 1 (by decide) (by decide)⟩

/-- C8: `capture` never validates `events` against the buffer capacity or
the per-channel region size — any events value up to 65535 is accepted
with SUCCESS, and each active channel's Transfer Channel is configured
with that raw count, even when it exceeds the channel's region. -/
theorem capture_accepts_any_event_count (n events edge trigger_pin : Nat)
    (s : LAState) (h1 : 1 ≤ n) (h2 : n ≤ 4) (he : edge ≠ EDGE_NONE)
    (_hev : events ≤ 65535) :
    (LA_capture n events edge trigger_pin s).1 = Response.SUCCESS
    ∧ ∀ i, i < n →
        HWEvent.dmaSetup i events (BUFFER + i * BUFFER_SIZE / n) ∈
          (LA_capture n events edge trigger_pin s).2.trace := by
  have hv := LA_capture_valid n events edge trigger_pin s h1 h2 he
  exact ⟨by rw [hv], fun i hi => by
    rw [hv]; exact (capture_setup_mem n events edge trigger_pin s i hi).1⟩

/-- Witness for C8: 65535 events on 4 channels (region capacity
10000 / 4 = 2500) is accepted and configured as-is. -/
theorem capture_accepts_any_event_count_witness :
    BUFFER_SIZE / 4 < 65535
    ∧ (LA_capture 4 65535 EDGE_FALLING CHANNEL_NONE initState).1 =
        Response.SUCCESS
    ∧ HWEvent.dmaSetup 0 65535 (BUFFER + 0 * BUFFER_SIZE / 4) ∈
        (LA_capture 4 65535 EDGE_FALLING CHANNEL_NONE initState).2.trace := by
  have h := capture_accepts_any_event_count 4 65535 EDGE_FALLING
    CHANNEL_NONE initState (by decide) (by decide) (by decide) (by decide)
  exact ⟨by decide, h.1, h.2 0 (by decide)⟩

/-- C9: edge validation rejects only the NONE value — every other byte
value of `edge`, including values outside {RISING, FALLING, ANY}, yields
SUCCESS and is passed unchecked to every active channel's `IC_start`;
`EDGE_NONE` itself is rejected. -/
theorem edge_validation_rejects_only_none (n events edge trigger_pin : Nat)
    (s : LAState) (h1 : 1 ≤ n) (h2 : n ≤ 4) (_hb : edge < 256)
    (he : edge ≠ EDGE_NONE) :
    (LA_capture n events edge trigger_pin s).1 = Response.SUCCESS
    ∧ (∀ i, i < n →
        HWEvent.icStart i edge (timer2ictsel g_TIMER) ∈
          (LA_capture n events edge trigger_pin s).2.trace)
    ∧ LA_capture n events EDGE_NONE trigger_pin s =
        (Response.ARGUMENT_ERROR, s) := by
  have hv := LA_capture_valid n events edge trigger_pin s h1 h2 he
  refine ⟨by rw [hv], fun i hi => by
    rw [hv]; exact (capture_setup_mem n events edge trigger_pin s i hi).2,
    ?_⟩
  have h0 : ¬n = 0 := by omega
  have h4 : ¬n > CHANNEL_NUMEL := by simp [CHANNEL_NUMEL]; omega
  simp [LA_capture, h0, h4]

/-- Witness for C9: byte 200 — outside the enumerated edge set — is
accepted and handed to both channels' `IC_start`. -/
theorem edge_validation_rejects_only_none_witness :
    ((200 : Nat) ≠ EDGE_RISING ∧ (200 : Nat) ≠ EDGE_FALLING ∧
      (200 : Nat) ≠ EDGE_ANY)
    ∧ (LA_capture 2 10 200 CHANNEL_NONE initState).1 = Response.SUCCESS
    ∧ HWEvent.icStart 0 200 (timer2ictsel g_TIMER) ∈
        (LA_capture 2 10 200 CHANNEL_NONE initState).2.trace
    ∧ HWEvent.icStart 1 200 (timer2ictsel g_TIMER) ∈
        (LA_capture 2 10 200 CHANNEL_NONE initState).2.trace
    ∧ LA_capture 2 10 EDGE_NONE CHANNEL_NONE initState =
        (Response.ARGUMENT_ERROR, initState) := by
  have h := edge_validation_rejects_only_none 2 10 200 CHANNEL_NONE
    initState (by decide) (by decide) (by decide) (by decide)
  exact ⟨by decide, h.1, h.2.1 0 (by decide), h.2.1 1 (by decide), h.2.2⟩

end LogicAnalyzer
